import Mathlib

/-!
# Verification of the cash-flow projection core (`app.py`)

Shallow embedding of the two pure core functions of the repository:

* `project_cash_flow` — the deterministic monthly cash-flow projector;
* `monte_carlo_cash_flow` — the Monte Carlo revenue-uncertainty simulator.

Modelling conventions:

* Python floats are modelled by exact rationals `ℚ` (the claims are algebraic
  identities of the real-number semantics of the formulas).
* Python list indexing `seasonality_factors[month_index]`, which raises
  `IndexError` when out of range, is modelled by `List.get?`; a raised error
  propagates as `none` through the whole computation (`traverseOpt`).
* `np.random.normal(loc, scale, size=n)` is modelled by its reparametrisation
  `loc + scale * z i` for an arbitrary realization `z : ℕ → ℕ → ℚ` of the
  underlying standard-normal draws, indexed by month and simulation number;
  every theorem about the simulator quantifies over all realizations.
* `np.median a` / `np.percentile a q` use numpy's default linear-interpolation
  rule: on the ascending sort `s` of `a` (length `n`), the result is the value
  at fractional position `p = q/100 * (n-1)`, linearly interpolated between
  `s[⌊p⌋]` and `s[⌊p⌋+1]`; `np.median` coincides with the 50th percentile.
-/

namespace PowerWash

/-- One data row of the deterministic projector, before the cumulative-profit
column is appended (`data.append([...])` in `project_cash_flow`). -/
structure Row where
  month : ℕ
  year : ℕ
  revenue : ℚ
  costs : ℚ
  profit : ℚ
  deriving Repr, DecidableEq

/-- One row of the final deterministic ledger: the five data columns plus the
derived `Cumulative Profit` column. -/
structure LedgerRow where
  month : ℕ
  year : ℕ
  revenue : ℚ
  costs : ℚ
  profit : ℚ
  cumulative_profit : ℚ
  deriving Repr, DecidableEq

/-- One row of the Monte Carlo summary frame. -/
structure SummaryRow where
  month : ℕ
  median_profit : ℚ
  lower_5pct : ℚ
  upper_95pct : ℚ
  deriving Repr, DecidableEq

/-- Effectful traversal of a list in the `Option` monad: a Python loop whose
body may raise (here: `IndexError` on `seasonality_factors[month_index]`)
either produces the whole list of results or fails. -/
def traverseOpt (f : α → Option β) : List α → Option (List β)
  | [] => some []
  | x :: xs =>
    match f x with
    | none => none
    | some y =>
      match traverseOpt f xs with
      | none => none
      | some ys => some (y :: ys)

/-- Loop body of `project_cash_flow` (lines 22-41 of `app.py`) at month
index `m`: `month_index = m % 12`, `year_index = m // 12`,
`growth_multiplier = (1 + annual_growth_rate) ** year_index`,
`season = seasonality_factors[month_index]`,
`monthly_revenue = jobs_per_week * 4 * avg_revenue_per_job * season *
growth_multiplier`, `monthly_profit = monthly_revenue - monthly_costs`,
emitted row `[m + 1, year_index + 1, monthly_revenue, monthly_costs,
monthly_profit]`. -/
def projectRow (monthly_costs jobs_per_week avg_revenue_per_job : ℚ)
    (seasonality_factors : List ℚ) (annual_growth_rate : ℚ) (m : ℕ) :
    Option Row :=
  match seasonality_factors[m % 12]? with
  | none => none
  | some season =>
    let year_index := m / 12
    let growth_multiplier := (1 + annual_growth_rate) ^ year_index
    let monthly_revenue :=
      jobs_per_week * 4 * avg_revenue_per_job * season * growth_multiplier
    let monthly_profit := monthly_revenue - monthly_costs
    some { month := m + 1, year := year_index + 1, revenue := monthly_revenue,
           costs := monthly_costs, profit := monthly_profit }

/-- Running prefix sum with accumulator, the semantics of pandas
`df["Profit"].cumsum()`. -/
def cumsumAux (acc : ℚ) : List ℚ → List ℚ
  | [] => []
  | x :: xs => (acc + x) :: cumsumAux (acc + x) xs

/-- `df["Profit"].cumsum()`: element `k` is the sum of elements `0..k`. -/
def cumsum (xs : List ℚ) : List ℚ := cumsumAux 0 xs

/-- Appending the `Cumulative Profit` column:
`df["Cumulative Profit"] = df["Profit"].cumsum()` (line 46 of `app.py`). -/
def attachCumulative (rows : List Row) : List LedgerRow :=
  List.zipWith
    (fun (r : Row) (c : ℚ) =>
      { month := r.month, year := r.year, revenue := r.revenue,
        costs := r.costs, profit := r.profit, cumulative_profit := c })
    rows (cumsum (rows.map Row.profit))

/-- `project_cash_flow` (lines 11-48 of `app.py`): loop `for m in
range(horizon_years * 12)`, collect the rows, then append the cumulative
column. `none` models a raised `IndexError`. -/
def project_cash_flow (monthly_costs jobs_per_week avg_revenue_per_job : ℚ)
    (seasonality_factors : List ℚ) (annual_growth_rate : ℚ)
    (horizon_years : ℕ) : Option (List LedgerRow) :=
  match traverseOpt
      (projectRow monthly_costs jobs_per_week avg_revenue_per_job
        seasonality_factors annual_growth_rate)
      (List.range (horizon_years * 12)) with
  | none => none
  | some rows => some (attachCumulative rows)

/-!
## Monte Carlo simulator
-/

/-- `mean_rev` of `monte_carlo_cash_flow` (line 70 of `app.py`):
`mean_rev = jobs_per_week * 4 * avg_revenue_per_job * season * growth` with
`season = seasonality_factors[m % 12]` and
`growth = (1 + annual_growth_rate) ** (m // 12)`. -/
def mc_mean_rev (jobs_per_week avg_revenue_per_job : ℚ)
    (seasonality_factors : List ℚ) (annual_growth_rate : ℚ) (m : ℕ) :
    Option ℚ :=
  match seasonality_factors[m % 12]? with
  | none => none
  | some season =>
    some (jobs_per_week * 4 * avg_revenue_per_job * season *
      (1 + annual_growth_rate) ^ (m / 12))

/-- `std_rev = avg_revenue_per_job * 0.15` (line 71 of `app.py`). -/
def mc_std_rev (avg_revenue_per_job : ℚ) : ℚ :=
  avg_revenue_per_job * (15 / 100)

/-- The per-month column of profit samples (lines 73-76 of `app.py`):
`rev_samples = np.random.normal(loc=mean_rev, scale=std_rev,
size=simulations)`, clamped by `rev_samples = np.maximum(0, rev_samples)`,
then `results[:, m] = rev_samples - monthly_costs`. The normal draw number
`i` of month `m` is reparametrised as `mean_rev + std_rev * z m i`. -/
def mc_profit_samples (monthly_costs jobs_per_week avg_revenue_per_job : ℚ)
    (seasonality_factors : List ℚ) (annual_growth_rate : ℚ)
    (simulations : ℕ) (z : ℕ → ℕ → ℚ) (m : ℕ) : Option (List ℚ) :=
  match mc_mean_rev jobs_per_week avg_revenue_per_job seasonality_factors
      annual_growth_rate m with
  | none => none
  | some mean_rev =>
    some ((List.range simulations).map
      (fun i => max 0 (mean_rev + mc_std_rev avg_revenue_per_job * z m i)
        - monthly_costs))

/-- Ascending sort of the sample array, as numpy's percentile routine
performs internally. -/
def sortSamples (xs : List ℚ) : List ℚ :=
  List.insertionSort (fun a b => a ≤ b) xs

/-- Linear interpolation of a (sorted) array at fractional position `p`:
the value between `s[⌊p⌋]` and `s[⌊p⌋ + 1]`, weighted by the fractional
part of `p`.  Out-of-range upper index falls back to the lower value, which
agrees with numpy on every in-domain position (`0 ≤ p ≤ n - 1`, where the
fractional part is `0` whenever `⌊p⌋ = n - 1`). -/
def interpAt (s : List ℚ) (p : ℚ) : ℚ :=
  s.getD (Int.floor p).toNat 0 +
    (p - ((Int.floor p).toNat : ℚ)) *
      (s.getD ((Int.floor p).toNat + 1) (s.getD (Int.floor p).toNat 0) -
        s.getD (Int.floor p).toNat 0)

/-- `np.percentile(xs, q)` with the default linear interpolation method:
interpolate the ascending sort of `xs` at position `q/100 * (n-1)`. -/
def percentile (xs : List ℚ) (q : ℚ) : ℚ :=
  let s := sortSamples xs
  interpAt s (q / 100 * ((s.length : ℚ) - 1))

/-- `np.median`, which equals the linearly-interpolated 50th percentile. -/
def npMedian (xs : List ℚ) : ℚ := percentile xs 50

/-- `monte_carlo_cash_flow` (lines 51-85 of `app.py`): for every month
`m in range(horizon_years * 12)` draw the profit-sample column, then
summarize it as `Month = m + 1`, `Median Profit = np.median`,
`Lower_5pct = np.percentile(·, 5)`, `Upper_95pct = np.percentile(·, 95)`.
`none` models a raised `IndexError`. -/
def monte_carlo_cash_flow (monthly_costs jobs_per_week avg_revenue_per_job : ℚ)
    (seasonality_factors : List ℚ) (annual_growth_rate : ℚ)
    (horizon_years simulations : ℕ) (z : ℕ → ℕ → ℚ) :
    Option (List SummaryRow) :=
  traverseOpt
    (fun m =>
      match mc_profit_samples monthly_costs jobs_per_week avg_revenue_per_job
          seasonality_factors annual_growth_rate simulations z m with
      | none => none
      | some profits =>
        some { month := m + 1
               median_profit := npMedian profits
               lower_5pct := percentile profits 5
               upper_95pct := percentile profits 95 })
    (List.range (horizon_years * 12))

example :
    (project_cash_flow 500 10 180 (List.replicate 12 1) 0 1).bind
      (fun l => l[0]?) = some ⟨1, 1, 7200, 500, 6700, 6700⟩ := by
  norm_num [project_cash_flow, traverseOpt, projectRow, attachCumulative,
    cumsum, cumsumAux, List.range_succ]

example :
    (project_cash_flow 500 10 180 (List.replicate 12 1) 0 1).bind
      (fun l => l[11]?) = some ⟨12, 1, 7200, 500, 6700, 80400⟩ := by
  norm_num [project_cash_flow, traverseOpt, projectRow, attachCumulative,
    cumsum, cumsumAux, List.range_succ]

example : percentile [3, 1, 2] 50 = 2 := by
  norm_num [percentile, sortSamples, interpAt, List.insertionSort,
    List.orderedInsert]

example : percentile [1, 2] 50 = 3 / 2 := by
  norm_num [percentile, sortSamples, interpAt, List.insertionSort,
    List.orderedInsert]

example : percentile [1, 2] 95 = 39 / 20 := by
  norm_num [percentile, sortSamples, interpAt, List.insertionSort,
    List.orderedInsert]

example : percentile [10, 20, 30, 40] 5 = 23 / 2 := by
  norm_num [percentile, sortSamples, interpAt, List.insertionSort,
    List.orderedInsert]

example : npMedian [5] = 5 := by
  norm_num [npMedian, percentile, sortSamples, interpAt, List.insertionSort,
    List.orderedInsert]

/-! ## Lemmas about the `Option`-monad traversal -/

theorem traverseOpt_eq_map {α β : Type _} {f : α → Option β} {g : α → β}
    {l : List α} (h : ∀ x ∈ l, f x = some (g x)) :
    traverseOpt f l = some (l.map g) := by
  induction l with
  | nil => rfl
  | cons x xs ih =>
    have hx := h x (List.mem_cons_self x xs)
    have hxs := ih fun y hy => h y (List.mem_cons_of_mem x hy)
    simp [traverseOpt, hx, hxs]

theorem traverseOpt_eq_none {α β : Type _} {f : α → Option β} {l : List α}
    {x : α} (hx : x ∈ l) (hfx : f x = none) : traverseOpt f l = none := by
  induction l with
  | nil => cases hx
  | cons y ys ih =>
    rcases List.mem_cons.mp hx with rfl | hmem
    · simp [traverseOpt, hfx]
    · cases hfy : f y <;> simp [traverseOpt, hfy, ih hmem]

theorem exists_of_traverseOpt_some {α β : Type _} {f : α → Option β} :
    ∀ {l : List α} {ys : List β}, traverseOpt f l = some ys →
      ∀ y ∈ ys, ∃ x ∈ l, f x = some y := by
  intro l
  induction l with
  | nil =>
    intro ys h y hy
    simp only [traverseOpt, Option.some.injEq] at h
    subst h
    cases hy
  | cons x xs ih =>
    intro ys h y hy
    rcases hfx : f x with _ | z
    · simp [traverseOpt, hfx] at h
    rcases ht : traverseOpt f xs with _ | zs
    · simp [traverseOpt, hfx, ht] at h
    simp only [traverseOpt, hfx, ht, Option.some.injEq] at h
    subst h
    rcases List.mem_cons.mp hy with rfl | hmem
    · exact ⟨x, List.mem_cons_self x xs, hfx⟩
    · obtain ⟨w, hw, hfw⟩ := ih ht y hmem
      exact ⟨w, List.mem_cons_of_mem x hw, hfw⟩

theorem length_of_traverseOpt_some {α β : Type _} {f : α → Option β} :
    ∀ {l : List α} {ys : List β}, traverseOpt f l = some ys →
      ys.length = l.length := by
  intro l
  induction l with
  | nil =>
    intro ys h
    simp only [traverseOpt, Option.some.injEq] at h
    subst h
    rfl
  | cons x xs ih =>
    intro ys h
    rcases hfx : f x with _ | z
    · simp [traverseOpt, hfx] at h
    rcases ht : traverseOpt f xs with _ | zs
    · simp [traverseOpt, hfx, ht] at h
    simp only [traverseOpt, hfx, ht, Option.some.injEq] at h
    subst h
    simp [ih ht]

/-! ## Lemmas about the cumulative-sum column -/

theorem cumsumAux_length (acc : ℚ) (xs : List ℚ) :
    (cumsumAux acc xs).length = xs.length := by
  induction xs generalizing acc with
  | nil => rfl
  | cons x t ih => simp [cumsumAux, ih]

theorem cumsumAux_getElem? {xs : List ℚ} {k : ℕ} (acc : ℚ)
    (hk : k < xs.length) :
    (cumsumAux acc xs)[k]? = some (acc + ((xs.take (k + 1)).sum)) := by
  induction xs generalizing acc k with
  | nil => cases hk
  | cons x t ih =>
    cases k with
    | zero => simp [cumsumAux]
    | succ k =>
      have hk' : k < t.length := Nat.lt_of_succ_lt_succ hk
      simp [cumsumAux, ih acc hk', ih (acc + x) hk', add_assoc]

theorem cumsum_length (xs : List ℚ) : (cumsum xs).length = xs.length :=
  cumsumAux_length 0 xs

theorem cumsum_getElem? {xs : List ℚ} {k : ℕ} (hk : k < xs.length) :
    (cumsum xs)[k]? = some ((xs.take (k + 1)).sum) := by
  simpa [cumsum] using cumsumAux_getElem? 0 hk

theorem attachCumulative_length (rows : List Row) :
    (attachCumulative rows).length = rows.length := by
  simp [attachCumulative, cumsum_length]

theorem attachCumulative_getElem? {rows : List Row} {k : ℕ} {r : Row}
    (hr : rows[k]? = some r) :
    (attachCumulative rows)[k]? =
      some { month := r.month, year := r.year, revenue := r.revenue,
             costs := r.costs, profit := r.profit,
             cumulative_profit := (((rows.map Row.profit).take (k + 1)).sum) } := by
  have hk : k < rows.length := by
    rcases List.getElem?_eq_some_iff.mp hr with ⟨h, _⟩
    exact h
  have hcum : (cumsum (rows.map Row.profit))[k]? =
      some (((rows.map Row.profit).take (k + 1)).sum) :=
    cumsum_getElem? (by simpa using hk)
  rw [attachCumulative, List.getElem?_zipWith, hr, hcum]

/-! ## Closed form of the deterministic projector -/

/-- The row the deterministic projector emits at month index `m`, once the
seasonality lookup is known to be in range (closed form of `projectRow`). -/
def detRow (monthly_costs jobs_per_week avg_revenue_per_job : ℚ)
    (seasonality_factors : List ℚ) (annual_growth_rate : ℚ) (m : ℕ) : Row :=
  let monthly_revenue :=
    jobs_per_week * 4 * avg_revenue_per_job *
      seasonality_factors.getD (m % 12) 0 * (1 + annual_growth_rate) ^ (m / 12)
  { month := m + 1, year := m / 12 + 1, revenue := monthly_revenue,
    costs := monthly_costs, profit := monthly_revenue - monthly_costs }

theorem projectRow_eq_detRow {mc jpw arpj agr : ℚ} {sf : List ℚ} {m : ℕ}
    (hsf : 12 ≤ sf.length) :
    projectRow mc jpw arpj sf agr m = some (detRow mc jpw arpj sf agr m) := by
  have h12 : m % 12 < sf.length :=
    lt_of_lt_of_le (Nat.mod_lt _ (by norm_num)) hsf
  rw [projectRow, List.getElem?_eq_getElem h12]
  simp [detRow, List.getElem?_eq_getElem h12]

/-- The full deterministic ledger in closed form. -/
def detLedger (monthly_costs jobs_per_week avg_revenue_per_job : ℚ)
    (seasonality_factors : List ℚ) (annual_growth_rate : ℚ)
    (horizon_years : ℕ) : List LedgerRow :=
  attachCumulative ((List.range (horizon_years * 12)).map
    (detRow monthly_costs jobs_per_week avg_revenue_per_job
      seasonality_factors annual_growth_rate))

theorem project_cash_flow_eq_detLedger {mc jpw arpj agr : ℚ} {sf : List ℚ}
    {h : ℕ} (hsf : 12 ≤ sf.length) :
    project_cash_flow mc jpw arpj sf agr h =
      some (detLedger mc jpw arpj sf agr h) := by
  rw [project_cash_flow,
    traverseOpt_eq_map fun m _ => projectRow_eq_detRow hsf]
  rfl

theorem detLedger_length (mc jpw arpj agr : ℚ) (sf : List ℚ) (h : ℕ) :
    (detLedger mc jpw arpj sf agr h).length = h * 12 := by
  simp [detLedger, attachCumulative_length]

theorem detLedger_getElem? {mc jpw arpj agr : ℚ} {sf : List ℚ} {h k : ℕ}
    (hk : k < h * 12) :
    (detLedger mc jpw arpj sf agr h)[k]? =
      some { month := k + 1, year := k / 12 + 1,
             revenue := (detRow mc jpw arpj sf agr k).revenue,
             costs := mc,
             profit := (detRow mc jpw arpj sf agr k).revenue - mc,
             cumulative_profit :=
               ((((List.range (h * 12)).map
                 (fun m => (detRow mc jpw arpj sf agr m).profit)).take
                   (k + 1)).sum) } := by
  have hrow : ((List.range (h * 12)).map
      (detRow mc jpw arpj sf agr))[k]? =
      some (detRow mc jpw arpj sf agr k) := by
    simp [List.getElem?_range hk]
  have := attachCumulative_getElem? hrow
  rw [detLedger, this]
  simp [detRow, List.map_map, Function.comp_def]

/-! ## Facts about the percentile interpolation -/

theorem sortSamples_sorted (xs : List ℚ) :
    List.Sorted (fun a b => a ≤ b) (sortSamples xs) :=
  List.sorted_insertionSort _ xs

theorem sortSamples_perm (xs : List ℚ) : List.Perm (sortSamples xs) xs :=
  List.perm_insertionSort _ xs

theorem sortSamples_length (xs : List ℚ) :
    (sortSamples xs).length = xs.length :=
  (sortSamples_perm xs).length_eq

theorem floor_toNat_le {p : ℚ} (hp : 0 ≤ p) : ((Int.floor p).toNat : ℚ) ≤ p := by
  have h0 : (0 : ℤ) ≤ Int.floor p := Int.floor_nonneg.mpr hp
  have heq : (((Int.floor p).toNat : ℕ) : ℚ) = ((Int.floor p : ℤ) : ℚ) := by
    exact_mod_cast Int.toNat_of_nonneg h0
  rw [heq]
  exact Int.floor_le p

theorem lt_floor_toNat_add_one {p : ℚ} (hp : 0 ≤ p) :
    p < ((Int.floor p).toNat : ℚ) + 1 := by
  have h0 : (0 : ℤ) ≤ Int.floor p := Int.floor_nonneg.mpr hp
  have heq : (((Int.floor p).toNat : ℕ) : ℚ) = ((Int.floor p : ℤ) : ℚ) := by
    exact_mod_cast Int.toNat_of_nonneg h0
  rw [heq]
  exact Int.lt_floor_add_one p

theorem floor_toNat_lt {p : ℚ} {n : ℕ} (hp : 0 ≤ p)
    (hpn : p ≤ (n : ℚ) - 1) : (Int.floor p).toNat < n := by
  have h1 : ((Int.floor p).toNat : ℚ) ≤ (n : ℚ) - 1 :=
    le_trans (floor_toNat_le hp) hpn
  have h2 : ((Int.floor p).toNat : ℚ) < (n : ℚ) := by linarith
  exact_mod_cast h2

theorem sorted_getD_mono {s : List ℚ}
    (hs : List.Sorted (fun a b => a ≤ b) s) {i j : ℕ} (hij : i ≤ j)
    (hj : j < s.length) : s.getD i 0 ≤ s.getD j 0 := by
  have hi : i < s.length := Nat.lt_of_le_of_lt hij hj
  rw [List.getD_eq_getElem s 0 hi, List.getD_eq_getElem s 0 hj]
  have := hs.rel_get_of_le (Fin.mk_le_mk.mpr hij : (⟨i, hi⟩ : Fin s.length) ≤ ⟨j, hj⟩)
  simpa using this

theorem getD_succ_ge {s : List ℚ}
    (hs : List.Sorted (fun a b => a ≤ b) s) {lo : ℕ} (hlo : lo < s.length) :
    s.getD lo 0 ≤ s.getD (lo + 1) (s.getD lo 0) := by
  by_cases h : lo + 1 < s.length
  · have hmono := sorted_getD_mono hs (Nat.le_succ lo) h
    rw [List.getD_eq_getElem s _ h]
    rw [List.getD_eq_getElem s 0 h, List.getD_eq_getElem s 0 hlo] at hmono
    rw [List.getD_eq_getElem s 0 hlo]
    exact hmono
  · rw [List.getD_eq_default s _ (Nat.le_of_not_lt h)]

theorem interpAt_ge_left {s : List ℚ}
    (hs : List.Sorted (fun a b => a ≤ b) s) {p : ℚ} (hp0 : 0 ≤ p)
    (hpn : p ≤ (s.length : ℚ) - 1) :
    s.getD (Int.floor p).toNat 0 ≤ interpAt s p := by
  have hlop : ((Int.floor p).toNat : ℚ) ≤ p := floor_toNat_le hp0
  have hlon : (Int.floor p).toNat < s.length := floor_toNat_lt hp0 hpn
  have hab := getD_succ_ge hs hlon
  simp only [interpAt]
  nlinarith [mul_nonneg (sub_nonneg.mpr hlop) (sub_nonneg.mpr hab)]

theorem interpAt_le_right {s : List ℚ}
    (hs : List.Sorted (fun a b => a ≤ b) s) {p : ℚ} (hp0 : 0 ≤ p)
    (hpn : p ≤ (s.length : ℚ) - 1) :
    interpAt s p ≤ s.getD ((Int.floor p).toNat + 1)
      (s.getD (Int.floor p).toNat 0) := by
  have hlt : p < ((Int.floor p).toNat : ℚ) + 1 := lt_floor_toNat_add_one hp0
  have hlon : (Int.floor p).toNat < s.length := floor_toNat_lt hp0 hpn
  have hab := getD_succ_ge hs hlon
  simp only [interpAt]
  nlinarith [mul_nonneg
    (by linarith : (0 : ℚ) ≤ ((Int.floor p).toNat : ℚ) + 1 - p)
    (sub_nonneg.mpr hab)]

theorem interpAt_mono {s : List ℚ}
    (hs : List.Sorted (fun a b => a ≤ b) s) {p1 p2 : ℚ} (h0 : 0 ≤ p1)
    (h12 : p1 ≤ p2) (h2n : p2 ≤ (s.length : ℚ) - 1) :
    interpAt s p1 ≤ interpAt s p2 := by
  have h20 : 0 ≤ p2 := le_trans h0 h12
  have h1n : p1 ≤ (s.length : ℚ) - 1 := le_trans h12 h2n
  have hlo12 : (Int.floor p1).toNat ≤ (Int.floor p2).toNat :=
    Int.toNat_le_toNat (Int.floor_le_floor h12)
  rcases eq_or_lt_of_le hlo12 with heq | hlt
  · have hlon : (Int.floor p1).toNat < s.length := floor_toNat_lt h0 h1n
    have hab := getD_succ_ge hs hlon
    have hf12 : p1 - ((Int.floor p1).toNat : ℚ) ≤
        p2 - ((Int.floor p2).toNat : ℚ) := by
      rw [← heq]
      linarith
    simp only [interpAt, ← heq]
    nlinarith [mul_nonneg (sub_nonneg.mpr hf12) (sub_nonneg.mpr hab)]
  · have hq1b := interpAt_le_right hs h0 h1n
    have hq2a := interpAt_ge_left hs h20 h2n
    have hlo2n : (Int.floor p2).toNat < s.length := floor_toNat_lt h20 h2n
    have hsucc : (Int.floor p1).toNat + 1 < s.length :=
      Nat.lt_of_le_of_lt hlt hlo2n
    have hb1 : s.getD ((Int.floor p1).toNat + 1)
        (s.getD (Int.floor p1).toNat 0) =
        s.getD ((Int.floor p1).toNat + 1) 0 := by
      rw [List.getD_eq_getElem s _ hsucc, List.getD_eq_getElem s 0 hsucc]
    have hmono := sorted_getD_mono hs hlt hlo2n
    rw [hb1] at hq1b
    linarith

theorem percentile_mono {xs : List ℚ} {q1 q2 : ℚ} (h0 : 0 ≤ q1)
    (h12 : q1 ≤ q2) (h100 : q2 ≤ 100) :
    percentile xs q1 ≤ percentile xs q2 := by
  rcases Nat.eq_zero_or_pos (sortSamples xs).length with hn | hn
  · have hnil : sortSamples xs = [] := List.length_eq_zero.mp hn
    simp [percentile, hnil, interpAt, List.getD_nil]
  · have hs := sortSamples_sorted xs
    have hn1 : (1 : ℚ) ≤ ((sortSamples xs).length : ℚ) := by exact_mod_cast hn
    have hq1 : (0 : ℚ) ≤ q1 / 100 := by linarith
    have hq2 : q1 / 100 ≤ q2 / 100 := by linarith
    have hq3 : q2 / 100 ≤ 1 := by linarith
    simp only [percentile]
    apply interpAt_mono hs
    · exact mul_nonneg hq1 (by linarith)
    · exact mul_le_mul_of_nonneg_right hq2 (by linarith)
    · calc q2 / 100 * (((sortSamples xs).length : ℚ) - 1)
          ≤ 1 * (((sortSamples xs).length : ℚ) - 1) :=
            mul_le_mul_of_nonneg_right hq3 (by linarith)
        _ = ((sortSamples xs).length : ℚ) - 1 := one_mul _

theorem le_percentile_of_forall_le {xs : List ℚ} {c q : ℚ} (hne : xs ≠ [])
    (hc : ∀ x ∈ xs, c ≤ x) (h0 : 0 ≤ q) (h100 : q ≤ 100) :
    c ≤ percentile xs q := by
  have hs := sortSamples_sorted xs
  have hpos : 0 < (sortSamples xs).length := by
    rw [sortSamples_length]
    exact List.length_pos.mpr hne
  have hn1 : (1 : ℚ) ≤ ((sortSamples xs).length : ℚ) := by exact_mod_cast hpos
  have hq1 : (0 : ℚ) ≤ q / 100 := by linarith
  have hq3 : q / 100 ≤ 1 := by linarith
  have hp0 : 0 ≤ q / 100 * (((sortSamples xs).length : ℚ) - 1) :=
    mul_nonneg hq1 (by linarith)
  have hpn : q / 100 * (((sortSamples xs).length : ℚ) - 1) ≤
      ((sortSamples xs).length : ℚ) - 1 := by
    calc q / 100 * (((sortSamples xs).length : ℚ) - 1)
        ≤ 1 * (((sortSamples xs).length : ℚ) - 1) :=
          mul_le_mul_of_nonneg_right hq3 (by linarith)
      _ = ((sortSamples xs).length : ℚ) - 1 := one_mul _
  have hlon := floor_toNat_lt hp0 hpn
  have ha : c ≤ (sortSamples xs).getD
      (Int.floor (q / 100 * (((sortSamples xs).length : ℚ) - 1))).toNat 0 := by
    rw [List.getD_eq_getElem _ 0 hlon]
    exact hc _ ((sortSamples_perm xs).subset (List.getElem_mem hlon))
  have hi := interpAt_ge_left hs hp0 hpn
  simp only [percentile]
  linarith

/-! ## Structural lemmas about the Monte Carlo simulator -/

theorem monte_carlo_row_spec {mcosts jpw arpj agr : ℚ} {sf : List ℚ}
    {h sims : ℕ} {z : ℕ → ℕ → ℚ} {summary : List SummaryRow}
    {row : SummaryRow}
    (hsum : monte_carlo_cash_flow mcosts jpw arpj sf agr h sims z =
      some summary)
    (hrow : row ∈ summary) :
    ∃ m profits, m < h * 12 ∧
      mc_profit_samples mcosts jpw arpj sf agr sims z m = some profits ∧
      row = { month := m + 1, median_profit := npMedian profits,
              lower_5pct := percentile profits 5,
              upper_95pct := percentile profits 95 } := by
  obtain ⟨m, hm, hfm⟩ := exists_of_traverseOpt_some hsum row hrow
  rcases hp : mc_profit_samples mcosts jpw arpj sf agr sims z m with _ | profits
  · simp [hp] at hfm
  · refine ⟨m, profits, List.mem_range.mp hm, hp, ?_⟩
    simp only [hp, Option.some.injEq] at hfm
    exact hfm.symm

theorem mc_profit_samples_ge {mcosts jpw arpj agr : ℚ} {sf : List ℚ}
    {sims : ℕ} {z : ℕ → ℕ → ℚ} {m : ℕ} {profits : List ℚ}
    (hp : mc_profit_samples mcosts jpw arpj sf agr sims z m = some profits) :
    ∀ x ∈ profits, -mcosts ≤ x := by
  rcases hmean : mc_mean_rev jpw arpj sf agr m with _ | mean
  · rw [mc_profit_samples, hmean] at hp
    cases hp
  · rw [mc_profit_samples, hmean] at hp
    simp only [Option.some.injEq] at hp
    subst hp
    intro x hx
    simp only [List.mem_map] at hx
    obtain ⟨i, _, rfl⟩ := hx
    have := le_max_left (0 : ℚ) (mean + mc_std_rev arpj * z m i)
    linarith

theorem mc_profit_samples_length {mcosts jpw arpj agr : ℚ} {sf : List ℚ}
    {sims : ℕ} {z : ℕ → ℕ → ℚ} {m : ℕ} {profits : List ℚ}
    (hp : mc_profit_samples mcosts jpw arpj sf agr sims z m = some profits) :
    profits.length = sims := by
  rcases hmean : mc_mean_rev jpw arpj sf agr m with _ | mean
  · rw [mc_profit_samples, hmean] at hp
    cases hp
  · rw [mc_profit_samples, hmean] at hp
    simp only [Option.some.injEq] at hp
    subst hp
    simp

/-! ## Further lemmas about the deterministic ledger -/

theorem zipWith_left {α β γ : Type _} (g : α → γ) :
    ∀ (as : List α) (bs : List β), as.length ≤ bs.length →
      List.zipWith (fun a _ => g a) as bs = as.map g := by
  intro as
  induction as with
  | nil => intro bs _; rfl
  | cons a as ih =>
    intro bs hlen
    cases bs with
    | nil => cases hlen
    | cons b bs => simp [ih bs (Nat.le_of_succ_le_succ hlen)]

theorem attachCumulative_map_profit (rows : List Row) :
    (attachCumulative rows).map LedgerRow.profit = rows.map Row.profit := by
  rw [attachCumulative, List.map_zipWith]
  exact zipWith_left Row.profit rows _ (by simp [cumsum_length])

/-! ## The claims -/

/-- C1: for every call of `project_cash_flow` with `seasonality_factors` of
length 12, the revenue of the row at 0-based index `m` equals
`jobs_per_week * 4 * avg_revenue_per_job * seasonality_factors[m mod 12] *
(1 + annual_growth_rate) ^ (m / 12)`, and the row's profit equals that
revenue minus `monthly_costs`. -/
theorem claim_C1 (mcosts jpw arpj agr : ℚ) (sf : List ℚ) (h m : ℕ)
    (row : LedgerRow) (hsf : sf.length = 12)
    (hrow : (project_cash_flow mcosts jpw arpj sf agr h).bind
      (fun l => l[m]?) = some row) :
    row.revenue = jpw * 4 * arpj * sf.getD (m % 12) 0 *
      (1 + agr) ^ (m / 12) ∧
    row.profit = row.revenue - mcosts := by
  rw [project_cash_flow_eq_detLedger (le_of_eq hsf.symm)] at hrow
  simp only [Option.some_bind] at hrow
  have hm : m < h * 12 := by
    rcases List.getElem?_eq_some_iff.mp hrow with ⟨hlt, _⟩
    rwa [detLedger_length] at hlt
  rw [detLedger_getElem? hm, Option.some.injEq] at hrow
  subst hrow
  simp [detRow]

/-- C2: for every row index `k` of the ledger returned by
`project_cash_flow`, the cumulative-profit value at row `k` equals the sum
of the profit values of the rows up to and including row `k`, in month
order. -/
theorem claim_C2 (mcosts jpw arpj agr : ℚ) (sf : List ℚ) (h k : ℕ)
    (ledger : List LedgerRow) (row : LedgerRow) (hsf : sf.length = 12)
    (hled : project_cash_flow mcosts jpw arpj sf agr h = some ledger)
    (hrow : ledger[k]? = some row) :
    row.cumulative_profit =
      ((ledger.take (k + 1)).map LedgerRow.profit).sum := by
  rw [project_cash_flow_eq_detLedger (le_of_eq hsf.symm),
    Option.some.injEq] at hled
  subst hled
  have hk : k < h * 12 := by
    rcases List.getElem?_eq_some_iff.mp hrow with ⟨hlt, _⟩
    rwa [detLedger_length] at hlt
  rw [detLedger_getElem? hk, Option.some.injEq] at hrow
  subst hrow
  simp only [detLedger, List.map_take, attachCumulative_map_profit,
    List.map_map, Function.comp_def]

/-- C3: for every `horizon_years = h ≥ 0`, `project_cash_flow` returns
exactly `12 * h` rows; in particular `horizon_years = 0` returns an empty
ledger, for any seasonality sequence, and does not raise an error. -/
theorem claim_C3 (mcosts jpw arpj agr : ℚ) (sf : List ℚ) (h : ℕ)
    (hsf : 12 ≤ sf.length) :
    (project_cash_flow mcosts jpw arpj sf agr h).map List.length =
      some (12 * h) ∧
    ∀ sf' : List ℚ, project_cash_flow mcosts jpw arpj sf' agr 0 =
      some [] := by
  constructor
  · rw [project_cash_flow_eq_detLedger hsf]
    simp [detLedger_length, Nat.mul_comm]
  · intro sf'
    rfl

/-- C4: if all 12 seasonality factors equal 1, the revenue of the row at
index `m` (which lies in 1-based year `m / 12 + 1`) equals the revenue of
the corresponding month of year 1 (index `m % 12`) multiplied by
`(1 + annual_growth_rate) ^ (m / 12)`, and revenue is constant across the
months of any one year. -/
theorem claim_C4 (mcosts jpw arpj agr : ℚ) (h m m' : ℕ)
    (ledger : List LedgerRow) (row row' : LedgerRow)
    (hled : project_cash_flow mcosts jpw arpj (List.replicate 12 1) agr h =
      some ledger)
    (hrow : ledger[m]? = some row) (hrow' : ledger[m']? = some row') :
    (m' = m % 12 → row.revenue = row'.revenue * (1 + agr) ^ (m / 12)) ∧
    (m / 12 = m' / 12 → row.revenue = row'.revenue) := by
  rw [project_cash_flow_eq_detLedger (by simp), Option.some.injEq] at hled
  subst hled
  have hm : m < h * 12 := by
    rcases List.getElem?_eq_some_iff.mp hrow with ⟨hlt, _⟩
    rwa [detLedger_length] at hlt
  have hm' : m' < h * 12 := by
    rcases List.getElem?_eq_some_iff.mp hrow' with ⟨hlt, _⟩
    rwa [detLedger_length] at hlt
  rw [detLedger_getElem? hm, Option.some.injEq] at hrow
  rw [detLedger_getElem? hm', Option.some.injEq] at hrow'
  subst hrow
  subst hrow'
  have hone : ∀ i : ℕ, (List.replicate 12 (1 : ℚ)).getD (i % 12) 0 = 1 := by
    intro i
    have hi : i % 12 < (List.replicate 12 (1 : ℚ)).length := by
      simp [Nat.mod_lt]
    rw [List.getD_eq_getElem _ 0 hi, List.getElem_replicate]
  constructor
  · intro hm'eq
    subst hm'eq
    simp only [detRow, hone]
    have : m % 12 / 12 = 0 := Nat.div_eq_of_lt (Nat.mod_lt _ (by norm_num))
    rw [this, pow_zero]
    ring
  · intro hyear
    simp only [detRow, hone, hyear]

/-- C8: for every row of the ledger at 0-based index `m`, the month field
equals `m + 1` and the year field equals `m / 12 + 1`; both are determined
by the row index and are monotonically non-decreasing in it. -/
theorem claim_C8 (mcosts jpw arpj agr : ℚ) (sf : List ℚ) (h m : ℕ)
    (ledger : List LedgerRow) (row : LedgerRow) (hsf : 12 ≤ sf.length)
    (hled : project_cash_flow mcosts jpw arpj sf agr h = some ledger)
    (hrow : ledger[m]? = some row) :
    row.month = m + 1 ∧ row.year = m / 12 + 1 ∧
    ∀ j rowj, j ≤ m → ledger[j]? = some rowj →
      rowj.month ≤ row.month ∧ rowj.year ≤ row.year := by
  rw [project_cash_flow_eq_detLedger hsf, Option.some.injEq] at hled
  subst hled
  have hm : m < h * 12 := by
    rcases List.getElem?_eq_some_iff.mp hrow with ⟨hlt, _⟩
    rwa [detLedger_length] at hlt
  rw [detLedger_getElem? hm, Option.some.injEq] at hrow
  subst hrow
  refine ⟨rfl, rfl, ?_⟩
  intro j rowj hjm hrowj
  have hj : j < h * 12 := Nat.lt_of_le_of_lt hjm hm
  rw [detLedger_getElem? hj, Option.some.injEq] at hrowj
  subst hrowj
  exact ⟨Nat.succ_le_succ hjm, Nat.succ_le_succ (Nat.div_le_div_right hjm)⟩

/-- C9: every row of the ledger has its costs field equal to the
`monthly_costs` input; costs are identical across all rows and unaffected
by seasonality, growth, or month index. -/
theorem claim_C9 (mcosts jpw arpj agr : ℚ) (sf : List ℚ) (h : ℕ)
    (ledger : List LedgerRow) (hsf : 12 ≤ sf.length)
    (hled : project_cash_flow mcosts jpw arpj sf agr h = some ledger) :
    ∀ row ∈ ledger, row.costs = mcosts := by
  rw [project_cash_flow_eq_detLedger hsf, Option.some.injEq] at hled
  subst hled
  intro row hrow
  obtain ⟨k, hk⟩ := List.mem_iff_getElem?.mp hrow
  have hklt : k < h * 12 := by
    rcases List.getElem?_eq_some_iff.mp hk with ⟨hlt, _⟩
    rwa [detLedger_length] at hlt
  rw [detLedger_getElem? hklt, Option.some.injEq] at hk
  rw [← hk]

/-- C5: for every summary row of `monte_carlo_cash_flow` and for any
realization of the random draws, `Lower_5pct ≤ Median Profit ≤
Upper_95pct`: the three statistics are computed over the same per-month
sample array, so the ordering holds for every sample. -/
theorem claim_C5 (mcosts jpw arpj agr : ℚ) (sf : List ℚ) (h sims : ℕ)
    (z : ℕ → ℕ → ℚ) (summary : List SummaryRow) (row : SummaryRow)
    (_hsims : 1 ≤ sims)
    (hsum : monte_carlo_cash_flow mcosts jpw arpj sf agr h sims z =
      some summary)
    (hrow : row ∈ summary) :
    row.lower_5pct ≤ row.median_profit ∧
    row.median_profit ≤ row.upper_95pct := by
  obtain ⟨m, profits, _, hp, hrw⟩ := monte_carlo_row_spec hsum hrow
  subst hrw
  refine ⟨?_, ?_⟩ <;> simp only [npMedian]
  · exact percentile_mono (by norm_num) (by norm_num) (by norm_num)
  · exact percentile_mono (by norm_num) (by norm_num) (by norm_num)

/-- C6: every sampled revenue value in `monte_carlo_cash_flow` is clamped
to be non-negative before profit is computed; hence for any realization of
the draws every per-month profit sample is at least `-monthly_costs`, and
every `Lower_5pct`, `Median Profit` and `Upper_95pct` value is at least
`-monthly_costs`. -/
theorem claim_C6 (mcosts jpw arpj agr : ℚ) (sf : List ℚ) (h sims : ℕ)
    (z : ℕ → ℕ → ℚ) (summary : List SummaryRow)
    (hsims : 1 ≤ sims)
    (hsum : monte_carlo_cash_flow mcosts jpw arpj sf agr h sims z =
      some summary) :
    (∀ m profits,
      mc_profit_samples mcosts jpw arpj sf agr sims z m = some profits →
        ∀ x ∈ profits, -mcosts ≤ x) ∧
    ∀ row ∈ summary, -mcosts ≤ row.lower_5pct ∧
      -mcosts ≤ row.median_profit ∧ -mcosts ≤ row.upper_95pct := by
  refine ⟨fun m profits hp => mc_profit_samples_ge hp, ?_⟩
  intro row hrow
  obtain ⟨m, profits, _, hp, hrw⟩ := monte_carlo_row_spec hsum hrow
  subst hrw
  have hne : profits ≠ [] := by
    intro hnil
    have hlen := mc_profit_samples_length hp
    rw [hnil] at hlen
    simp at hlen
    omega
  have hge := mc_profit_samples_ge hp
  refine ⟨?_, ?_, ?_⟩ <;> simp only [npMedian] <;>
    exact le_percentile_of_forall_le hne hge (by norm_num) (by norm_num)

/-- C7: for every month index `m`, the location parameter of the Normal
distribution sampled by `monte_carlo_cash_flow` equals the deterministic
monthly revenue of `project_cash_flow` for the same parameters and month,
its scale parameter equals `avg_revenue_per_job * 0.15` independently of
the month, and sample `i` of month `m` is the clamped draw
`max 0 (mean + std * z m i)` minus `monthly_costs`. -/
theorem claim_C7 (mcosts jpw arpj agr : ℚ) (sf : List ℚ) (h sims m i : ℕ)
    (z : ℕ → ℕ → ℚ) (profits : List ℚ) (lrow : LedgerRow)
    (hsf : 12 ≤ sf.length)
    (hp : mc_profit_samples mcosts jpw arpj sf agr sims z m = some profits)
    (hrow : (project_cash_flow mcosts jpw arpj sf agr h).bind
      (fun l => l[m]?) = some lrow)
    (hi : i < sims) :
    mc_mean_rev jpw arpj sf agr m = some lrow.revenue ∧
    mc_std_rev arpj = arpj * (15 / 100) ∧
    profits[i]? =
      some (max 0 (lrow.revenue + mc_std_rev arpj * z m i) - mcosts) := by
  rw [project_cash_flow_eq_detLedger hsf, Option.some_bind] at hrow
  have hm : m < h * 12 := by
    rcases List.getElem?_eq_some_iff.mp hrow with ⟨hlt, _⟩
    rwa [detLedger_length] at hlt
  rw [detLedger_getElem? hm, Option.some.injEq] at hrow
  subst hrow
  have hidx : m % 12 < sf.length :=
    lt_of_lt_of_le (Nat.mod_lt _ (by norm_num)) hsf
  have hsg : sf[m % 12]? = some (sf.getD (m % 12) 0) := by
    rw [List.getElem?_eq_getElem hidx, List.getD_eq_getElem sf 0 hidx]
  have hmean : mc_mean_rev jpw arpj sf agr m =
      some (jpw * 4 * arpj * sf.getD (m % 12) 0 * (1 + agr) ^ (m / 12)) := by
    rw [mc_mean_rev, hsg]
  refine ⟨?_, rfl, ?_⟩
  · rw [hmean]
    simp [detRow]
  · rw [mc_profit_samples, hmean, Option.some.injEq] at hp
    subst hp
    rw [List.getElem?_map, List.getElem?_range hi]
    simp [detRow]

/-! ## Seasonality-access lemmas (for C10) -/

theorem traverseOpt_congr {α β : Type _} {f g : α → Option β} {l : List α}
    (h : ∀ x ∈ l, f x = g x) : traverseOpt f l = traverseOpt g l := by
  induction l with
  | nil => rfl
  | cons x xs ih =>
    rw [traverseOpt, traverseOpt, h x (List.mem_cons_self x xs),
      ih fun y hy => h y (List.mem_cons_of_mem x hy)]

theorem mc_mean_rev_eq {jpw arpj agr : ℚ} {sf : List ℚ}
    (hsf : 12 ≤ sf.length) (m : ℕ) :
    mc_mean_rev jpw arpj sf agr m =
      some (jpw * 4 * arpj * sf.getD (m % 12) 0 *
        (1 + agr) ^ (m / 12)) := by
  have hidx : m % 12 < sf.length :=
    lt_of_lt_of_le (Nat.mod_lt _ (by norm_num)) hsf
  rw [mc_mean_rev, List.getElem?_eq_getElem hidx,
    List.getD_eq_getElem sf 0 hidx]

/-- Closed form of the Monte Carlo summary row at month `m`, once the
seasonality lookup is known to be in range. -/
def mcRow (mcosts jpw arpj : ℚ) (sf : List ℚ) (agr : ℚ) (sims : ℕ)
    (z : ℕ → ℕ → ℚ) (m : ℕ) : SummaryRow :=
  let profits := (List.range sims).map
    (fun i => max 0 (jpw * 4 * arpj * sf.getD (m % 12) 0 *
      (1 + agr) ^ (m / 12) + mc_std_rev arpj * z m i) - mcosts)
  { month := m + 1, median_profit := npMedian profits,
    lower_5pct := percentile profits 5,
    upper_95pct := percentile profits 95 }

theorem monte_carlo_eq_map {mcosts jpw arpj agr : ℚ} {sf : List ℚ}
    {h sims : ℕ} {z : ℕ → ℕ → ℚ} (hsf : 12 ≤ sf.length) :
    monte_carlo_cash_flow mcosts jpw arpj sf agr h sims z =
      some ((List.range (h * 12)).map
        (mcRow mcosts jpw arpj sf agr sims z)) := by
  rw [monte_carlo_cash_flow]
  apply traverseOpt_eq_map
  intro m _
  rw [mc_profit_samples, mc_mean_rev_eq hsf]
  rfl

theorem getElem?_take_mod (sf : List ℚ) (m : ℕ) :
    (sf.take 12)[m % 12]? = sf[m % 12]? :=
  List.getElem?_take_of_lt (Nat.mod_lt _ (by norm_num))

theorem projectRow_take12 (mcosts jpw arpj agr : ℚ) (sf : List ℚ) (m : ℕ) :
    projectRow mcosts jpw arpj (sf.take 12) agr m =
      projectRow mcosts jpw arpj sf agr m := by
  rw [projectRow, projectRow, getElem?_take_mod]

theorem project_cash_flow_take12 (mcosts jpw arpj agr : ℚ) (sf : List ℚ)
    (h : ℕ) :
    project_cash_flow mcosts jpw arpj (sf.take 12) agr h =
      project_cash_flow mcosts jpw arpj sf agr h := by
  rw [project_cash_flow, project_cash_flow,
    traverseOpt_congr fun m _ => projectRow_take12 mcosts jpw arpj agr sf m]

theorem mc_mean_rev_take12 (jpw arpj agr : ℚ) (sf : List ℚ) (m : ℕ) :
    mc_mean_rev jpw arpj (sf.take 12) agr m =
      mc_mean_rev jpw arpj sf agr m := by
  rw [mc_mean_rev, mc_mean_rev, getElem?_take_mod]

theorem mc_profit_samples_take12 (mcosts jpw arpj agr : ℚ) (sf : List ℚ)
    (sims : ℕ) (z : ℕ → ℕ → ℚ) (m : ℕ) :
    mc_profit_samples mcosts jpw arpj (sf.take 12) agr sims z m =
      mc_profit_samples mcosts jpw arpj sf agr sims z m := by
  rw [mc_profit_samples, mc_profit_samples, mc_mean_rev_take12]

theorem monte_carlo_take12 (mcosts jpw arpj agr : ℚ) (sf : List ℚ)
    (h sims : ℕ) (z : ℕ → ℕ → ℚ) :
    monte_carlo_cash_flow mcosts jpw arpj (sf.take 12) agr h sims z =
      monte_carlo_cash_flow mcosts jpw arpj sf agr h sims z := by
  rw [monte_carlo_cash_flow, monte_carlo_cash_flow]
  apply traverseOpt_congr
  intro m _
  rw [mc_profit_samples_take12]

theorem projectRow_oob {mcosts jpw arpj agr : ℚ} {sf : List ℚ}
    (hsf : sf.length < 12) :
    projectRow mcosts jpw arpj sf agr sf.length = none := by
  rw [projectRow, Nat.mod_eq_of_lt hsf, List.getElem?_eq_none (le_refl _)]

theorem mc_profit_samples_oob {mcosts jpw arpj agr : ℚ} {sf : List ℚ}
    {sims : ℕ} {z : ℕ → ℕ → ℚ} (hsf : sf.length < 12) :
    mc_profit_samples mcosts jpw arpj sf agr sims z sf.length = none := by
  rw [mc_profit_samples, mc_mean_rev, Nat.mod_eq_of_lt hsf,
    List.getElem?_eq_none (le_refl _)]

/-- C10: both `project_cash_flow` and `monte_carlo_cash_flow` read
`seasonality_factors` only at index `m mod 12`; with a sequence of length
at least 12 no out-of-bounds access ever occurs and entries beyond the
first 12 never affect the output, while a sequence shorter than 12 with
`horizon_years ≥ 1` makes either computation fail with an index error
(modelled as `none`). -/
theorem claim_C10 (mcosts jpw arpj agr : ℚ) (sf : List ℚ) (h sims : ℕ)
    (z : ℕ → ℕ → ℚ) :
    (12 ≤ sf.length →
      (project_cash_flow mcosts jpw arpj sf agr h).isSome ∧
      (monte_carlo_cash_flow mcosts jpw arpj sf agr h sims z).isSome ∧
      project_cash_flow mcosts jpw arpj (sf.take 12) agr h =
        project_cash_flow mcosts jpw arpj sf agr h ∧
      monte_carlo_cash_flow mcosts jpw arpj (sf.take 12) agr h sims z =
        monte_carlo_cash_flow mcosts jpw arpj sf agr h sims z) ∧
    (sf.length < 12 → 1 ≤ h →
      project_cash_flow mcosts jpw arpj sf agr h = none ∧
      monte_carlo_cash_flow mcosts jpw arpj sf agr h sims z = none) := by
  constructor
  · intro hsf
    refine ⟨?_, ?_, project_cash_flow_take12 mcosts jpw arpj agr sf h,
      monte_carlo_take12 mcosts jpw arpj agr sf h sims z⟩
    · rw [project_cash_flow_eq_detLedger hsf]
      rfl
    · rw [monte_carlo_eq_map hsf]
      rfl
  · intro hsf hh
    have hmem : sf.length ∈ List.range (h * 12) := by
      rw [List.mem_range]
      calc sf.length < 12 := hsf
        _ = 1 * 12 := (one_mul 12).symm
        _ ≤ h * 12 := Nat.mul_le_mul_right 12 hh
    constructor
    · rw [project_cash_flow,
        traverseOpt_eq_none hmem (projectRow_oob hsf)]
    · rw [monte_carlo_cash_flow]
      apply traverseOpt_eq_none hmem
      rw [mc_profit_samples_oob hsf]

/-! ## Concrete instances for the witnesses

The scenario of §8 of the specification: `monthly_costs = 500`,
`jobs_per_week = 10`, `avg_revenue_per_job = 180`, all seasonality factors
`1`, `annual_growth_rate = 0`, `horizon_years = 1`. -/

/-- The deterministic ledger of the concrete scenario. -/
def ledgerU : List LedgerRow :=
  [⟨1, 1, 7200, 500, 6700, 6700⟩, ⟨2, 1, 7200, 500, 6700, 13400⟩,
   ⟨3, 1, 7200, 500, 6700, 20100⟩, ⟨4, 1, 7200, 500, 6700, 26800⟩,
   ⟨5, 1, 7200, 500, 6700, 33500⟩, ⟨6, 1, 7200, 500, 6700, 40200⟩,
   ⟨7, 1, 7200, 500, 6700, 46900⟩, ⟨8, 1, 7200, 500, 6700, 53600⟩,
   ⟨9, 1, 7200, 500, 6700, 60300⟩, ⟨10, 1, 7200, 500, 6700, 67000⟩,
   ⟨11, 1, 7200, 500, 6700, 73700⟩, ⟨12, 1, 7200, 500, 6700, 80400⟩]

theorem ledgerU_spec :
    project_cash_flow 500 10 180 (List.replicate 12 1) 0 1 =
      some ledgerU := by
  norm_num [project_cash_flow, traverseOpt, projectRow, attachCumulative,
    cumsum, cumsumAux, List.range_succ, ledgerU]

/-- Witness for C1 at the concrete scenario, month index 0. -/
theorem claim_C1_witness :
    (List.replicate 12 (1 : ℚ)).length = 12 ∧
    ((⟨1, 1, 7200, 500, 6700, 6700⟩ : LedgerRow).revenue =
        10 * 4 * 180 * (List.replicate 12 (1 : ℚ)).getD (0 % 12) 0 *
          (1 + 0) ^ (0 / 12) ∧
      (⟨1, 1, 7200, 500, 6700, 6700⟩ : LedgerRow).profit =
        (⟨1, 1, 7200, 500, 6700, 6700⟩ : LedgerRow).revenue - 500) := by
  refine ⟨rfl, claim_C1 500 10 180 0 (List.replicate 12 1) 1 0
    ⟨1, 1, 7200, 500, 6700, 6700⟩ rfl ?_⟩
  rw [ledgerU_spec]
  rfl

/-- Witness for C2 at the concrete scenario, row index 1. -/
theorem claim_C2_witness :
    (List.replicate 12 (1 : ℚ)).length = 12 ∧
    (⟨2, 1, 7200, 500, 6700, 13400⟩ : LedgerRow).cumulative_profit =
      ((ledgerU.take 2).map LedgerRow.profit).sum := by
  exact ⟨rfl, claim_C2 500 10 180 0 (List.replicate 12 1) 1 1 ledgerU
    ⟨2, 1, 7200, 500, 6700, 13400⟩ rfl ledgerU_spec rfl⟩

/-- Witness for C3 at the concrete scenario (and the empty seasonality
list for the zero-horizon part). -/
theorem claim_C3_witness :
    12 ≤ (List.replicate 12 (1 : ℚ)).length ∧
    (project_cash_flow 500 10 180 (List.replicate 12 1) 0 1).map
      List.length = some (12 * 1) ∧
    project_cash_flow 500 10 180 [] 0 0 = some [] := by
  have h := claim_C3 500 10 180 0 (List.replicate 12 1) 1 (by norm_num)
  exact ⟨by norm_num, h.1, h.2 []⟩

/-- Witness for C4: a two-year scenario with zero growth; the row of month
index 13 (year 2) against its corresponding month of year 1. -/
theorem claim_C4_witness :
    (⟨14, 2, 7200, 500, 6700, 93800⟩ : LedgerRow).revenue =
      (⟨2, 1, 7200, 500, 6700, 13400⟩ : LedgerRow).revenue *
        ((1 : ℚ) + 0) ^ (13 / 12) := by
  have hled : project_cash_flow 500 10 180 (List.replicate 12 1) 0 2 =
      some (detLedger 500 10 180 (List.replicate 12 1) 0 2) :=
    project_cash_flow_eq_detLedger (by norm_num)
  have hrow : (detLedger 500 10 180 (List.replicate 12 1) 0 2)[13]? =
      some ⟨14, 2, 7200, 500, 6700, 93800⟩ := by
    norm_num [detLedger, attachCumulative, cumsum, cumsumAux, detRow,
      List.range_succ, List.getD_eq_getElem?_getD, List.getElem?_replicate]
  have hrow' : (detLedger 500 10 180 (List.replicate 12 1) 0 2)[1]? =
      some ⟨2, 1, 7200, 500, 6700, 13400⟩ := by
    norm_num [detLedger, attachCumulative, cumsum, cumsumAux, detRow,
      List.range_succ, List.getD_eq_getElem?_getD, List.getElem?_replicate]
  exact (claim_C4 500 10 180 0 2 13 1 _ _ _ hled hrow hrow').1 rfl

/-- Witness for C8 at the concrete scenario, row index 11 against row
index 0. -/
theorem claim_C8_witness :
    (⟨12, 1, 7200, 500, 6700, 80400⟩ : LedgerRow).month = 11 + 1 ∧
    (⟨12, 1, 7200, 500, 6700, 80400⟩ : LedgerRow).year = 11 / 12 + 1 ∧
    (⟨1, 1, 7200, 500, 6700, 6700⟩ : LedgerRow).month ≤
      (⟨12, 1, 7200, 500, 6700, 80400⟩ : LedgerRow).month ∧
    (⟨1, 1, 7200, 500, 6700, 6700⟩ : LedgerRow).year ≤
      (⟨12, 1, 7200, 500, 6700, 80400⟩ : LedgerRow).year := by
  have h := claim_C8 500 10 180 0 (List.replicate 12 1) 1 11 ledgerU
    ⟨12, 1, 7200, 500, 6700, 80400⟩ (by norm_num) ledgerU_spec rfl
  exact ⟨h.1, h.2.1, h.2.2 0 ⟨1, 1, 7200, 500, 6700, 6700⟩
    (by norm_num) rfl⟩

/-- Witness for C9 at the concrete scenario, first row. -/
theorem claim_C9_witness :
    (⟨1, 1, 7200, 500, 6700, 6700⟩ : LedgerRow).costs = 500 := by
  refine claim_C9 500 10 180 0 (List.replicate 12 1) 1 ledgerU
    (by norm_num) ledgerU_spec ⟨1, 1, 7200, 500, 6700, 6700⟩ ?_
  simp [ledgerU]

/-- The Monte Carlo summary of the concrete scenario with 2 simulations
and the standard-normal realization `z m i = i`: the per-month profit
samples are `[6700, 6727]` (the second draw is one standard deviation
`27 = 180 * 0.15` above the mean). -/
def summaryU : List SummaryRow :=
  [⟨1, 13427 / 2, 134027 / 20, 134513 / 20⟩,
   ⟨2, 13427 / 2, 134027 / 20, 134513 / 20⟩,
   ⟨3, 13427 / 2, 134027 / 20, 134513 / 20⟩,
   ⟨4, 13427 / 2, 134027 / 20, 134513 / 20⟩,
   ⟨5, 13427 / 2, 134027 / 20, 134513 / 20⟩,
   ⟨6, 13427 / 2, 134027 / 20, 134513 / 20⟩,
   ⟨7, 13427 / 2, 134027 / 20, 134513 / 20⟩,
   ⟨8, 13427 / 2, 134027 / 20, 134513 / 20⟩,
   ⟨9, 13427 / 2, 134027 / 20, 134513 / 20⟩,
   ⟨10, 13427 / 2, 134027 / 20, 134513 / 20⟩,
   ⟨11, 13427 / 2, 134027 / 20, 134513 / 20⟩,
   ⟨12, 13427 / 2, 134027 / 20, 134513 / 20⟩]

theorem summaryU_spec :
    monte_carlo_cash_flow 500 10 180 (List.replicate 12 1) 0 1 2
      (fun _ i => (i : ℚ)) = some summaryU := by
  norm_num [monte_carlo_cash_flow, traverseOpt, mc_profit_samples,
    mc_mean_rev, mc_std_rev, npMedian, percentile, sortSamples, interpAt,
    List.insertionSort, List.orderedInsert, List.range_succ, summaryU,
    max_def]

/-- Witness for C5 at the concrete scenario, first summary row. -/
theorem claim_C5_witness :
    1 ≤ 2 ∧
    ((⟨1, 13427 / 2, 134027 / 20, 134513 / 20⟩ : SummaryRow).lower_5pct ≤
      (⟨1, 13427 / 2, 134027 / 20, 134513 / 20⟩ :
        SummaryRow).median_profit ∧
     (⟨1, 13427 / 2, 134027 / 20, 134513 / 20⟩ :
        SummaryRow).median_profit ≤
      (⟨1, 13427 / 2, 134027 / 20, 134513 / 20⟩ :
        SummaryRow).upper_95pct) := by
  refine ⟨by norm_num, claim_C5 500 10 180 0 (List.replicate 12 1) 1 2
    (fun _ i => (i : ℚ)) summaryU ⟨1, 13427 / 2, 134027 / 20, 134513 / 20⟩
    (by norm_num) summaryU_spec ?_⟩
  simp [summaryU]

/-- Witness for C6 at the concrete scenario, first summary row. -/
theorem claim_C6_witness :
    -(500 : ℚ) ≤
      (⟨1, 13427 / 2, 134027 / 20, 134513 / 20⟩ : SummaryRow).lower_5pct ∧
    -(500 : ℚ) ≤
      (⟨1, 13427 / 2, 134027 / 20, 134513 / 20⟩ :
        SummaryRow).median_profit ∧
    -(500 : ℚ) ≤
      (⟨1, 13427 / 2, 134027 / 20, 134513 / 20⟩ :
        SummaryRow).upper_95pct := by
  have h := claim_C6 500 10 180 0 (List.replicate 12 1) 1 2
    (fun _ i => (i : ℚ)) summaryU (by norm_num) summaryU_spec
  exact h.2 ⟨1, 13427 / 2, 134027 / 20, 134513 / 20⟩ (by simp [summaryU])

/-- Witness for C7 at the concrete scenario, month 0, sample 0. -/
theorem claim_C7_witness :
    mc_mean_rev 10 180 (List.replicate 12 1) 0 0 =
      some (⟨1, 1, 7200, 500, 6700, 6700⟩ : LedgerRow).revenue ∧
    mc_std_rev 180 = 180 * (15 / 100) ∧
    ([6700, 6727] : List ℚ)[0]? =
      some (max 0 ((⟨1, 1, 7200, 500, 6700, 6700⟩ : LedgerRow).revenue +
        mc_std_rev 180 * (fun _ i => (i : ℚ)) 0 0) - 500) := by
  refine claim_C7 500 10 180 0 (List.replicate 12 1) 1 2 0 0
    (fun _ i => (i : ℚ)) [6700, 6727] ⟨1, 1, 7200, 500, 6700, 6700⟩
    (by norm_num) ?_ ?_ (by norm_num)
  · norm_num [mc_profit_samples, mc_mean_rev, mc_std_rev, List.range_succ,
      max_def]
  · rw [ledgerU_spec]
    rfl

/-- Witness for C10: an in-range seasonality list, a 13-element list whose
extra entry is ignored, and a 2-element list that makes both functions
fail. -/
theorem claim_C10_witness :
    (project_cash_flow 500 10 180 (List.replicate 12 1) 0 1).isSome ∧
    project_cash_flow 500 10 180 ((List.replicate 12 1 ++ [99]).take 12)
      0 1 = project_cash_flow 500 10 180 (List.replicate 12 1 ++ [99])
        0 1 ∧
    project_cash_flow 500 10 180 [1, 1] 0 1 = none ∧
    monte_carlo_cash_flow 500 10 180 [1, 1] 0 1 2 (fun _ _ => 0) =
      none := by
  have h1 := (claim_C10 500 10 180 0 (List.replicate 12 1) 1 2
    (fun _ _ => 0)).1 (by norm_num)
  have h2 := (claim_C10 500 10 180 0 (List.replicate 12 1 ++ [99]) 1 2
    (fun _ _ => 0)).1 (by norm_num)
  have h3 := (claim_C10 500 10 180 0 [1, 1] 1 2 (fun _ _ => 0)).2
    (by norm_num) (by norm_num)
  exact ⟨h1.1, h2.2.2.1, h3.1, h3.2⟩

end PowerWash
